import Mathlib

/-!
Shallow embedding of the two ETL pipelines of this repository
(`pipeline.py`, the insider-transactions pipeline, and `secondScript.py`,
the stock-movers pipeline).

Python scalar values that occur in the JSON payloads are modelled by
`PyVal`; containers appearing as field values are modelled by an opaque
size-carrying constructor `listv` since the pipelines only test their
truthiness or pass them to `float`.  Exceptions are modelled by the
`Except PyErr` monad; a `try/except (ValueError, TypeError)` block is a
match that turns exactly those error values back into `.ok` results.
Database effects are modelled as explicit state passing over in-memory
tables, with injected fault flags for failures of the driver.
-/

/-- Model of a Python scalar value as found in the JSON payloads. -/
inductive PyVal where
  | null
  | str (s : String)
  | num (q : ℚ)
  | boolean (b : Bool)
  | listv (n : Nat)
deriving DecidableEq, Repr

/-- Python truthiness of a `PyVal` (`if value:`). -/
def truthy : PyVal → Bool
  | .null => false
  | .str s => decide (s ≠ "")
  | .num q => decide (q ≠ 0)
  | .boolean b => b
  | .listv n => decide (n ≠ 0)

/-- Python exception classes that the embedded code can raise. -/
inductive PyErr where
  | valueError
  | typeError
  | attributeError
  | osError
  | dbError
deriving DecidableEq, Repr

/-- Leading sign of a Python float literal. -/
def splitSign : List Char → Bool × List Char
  | '-' :: rest => (true, rest)
  | '+' :: rest => (false, rest)
  | l => (false, l)

/-- Numeric value of a digit string, as a natural number. -/
def digitsNat (l : List Char) : Nat :=
  l.foldl (fun a c => a * 10 + (c.toNat - 48)) 0

/-- Surrounding-whitespace stripping performed by CPython `float` on
string arguments. -/
def stripWs (l : List Char) : List Char :=
  ((l.dropWhile Char.isWhitespace).reverse.dropWhile Char.isWhitespace).reverse

/-- Model of CPython `float(s)` on strings, restricted to finite decimal
literals: optional surrounding whitespace, optional sign, digits with an
optional decimal point (at least one digit), optional exponent.
`none` models `ValueError`. -/
def pyParseFloat (s : String) : Option ℚ :=
  let l := stripWs s.toList
  let sl := splitSign l
  let ip := sl.2.takeWhile Char.isDigit
  let r1 := sl.2.dropWhile Char.isDigit
  let fr : List Char × List Char :=
    match r1 with
    | '.' :: rest => (rest.takeWhile Char.isDigit, rest.dropWhile Char.isDigit)
    | _ => ([], r1)
  if ip.isEmpty && fr.1.isEmpty then none
  else
    let m : Int := (digitsNat (ip ++ fr.1) : Int)
    let m : Int := if sl.1 then -m else m
    match fr.2 with
    | [] => some (mkRat m (10 ^ fr.1.length))
    | c :: rest =>
      if c = 'e' || c = 'E' then
        let se := splitSign rest
        let ed := se.2.takeWhile Char.isDigit
        let r4 := se.2.dropWhile Char.isDigit
        if ed.isEmpty || !r4.isEmpty then none
        else if se.1 then some (mkRat m (10 ^ (fr.1.length + digitsNat ed)))
        else some (mkRat (m * 10 ^ digitsNat ed) (10 ^ fr.1.length))
      else none

/-- Model of the Python builtin `float` applied to a `PyVal`. -/
def pyFloat : PyVal → Except PyErr ℚ
  | .null => .error .typeError
  | .str s =>
    match pyParseFloat s with
    | some q => .ok q
    | Option.none => .error .valueError
  | .num q => .ok q
  | .boolean b => .ok (if b then 1 else 0)
  | .listv _ => .error .typeError

/-- `_safe_float` of both `pipeline.py` and `secondScript.py`:
`return float(value) if value else default` under
`except (ValueError, TypeError): return default`.  Exceptions other than
`ValueError`/`TypeError` would propagate (there are none from `pyFloat`). -/
def safe_float (value : PyVal) (default : ℚ) : Except PyErr ℚ :=
  match (if truthy value then pyFloat value else .ok default) with
  | .ok q => .ok q
  | .error .valueError => .ok default
  | .error .typeError => .ok default
  | .error e => .error e

/-- A Python dict with string keys, as the JSON payload entries are. -/
abbrev PyDict := List (String × PyVal)

/-- Python `d[k]` / successful key lookup. -/
def dget (d : PyDict) (k : String) : Option PyVal :=
  d.lookup k

/-- Python `d.get(k, dflt)`. -/
def dgetD (d : PyDict) (k : String) (dflt : PyVal) : PyVal :=
  (dget d k).getD dflt

/-- Python `d.get(k)` (default `None`). -/
def dgetN (d : PyDict) (k : String) : PyVal :=
  (dget d k).getD .null

/-- Truthiness of `d.get(k)` (`if not transaction.get('transaction_date')`). -/
def truthyO : Option PyVal → Bool
  | Option.none => false
  | some v => truthy v

/-- Date produced by `datetime.strptime(s, '%Y-%m-%d')`. -/
structure PyDate where
  year : Nat
  month : Nat
  day : Nat
deriving DecidableEq, Repr

/-- Gregorian leap year, as `datetime` validates day-of-month. -/
def leapYear (y : Nat) : Bool :=
  y % 4 = 0 && (y % 100 != 0 || y % 400 = 0)

/-- Number of days of month `m` in year `y`. -/
def daysInMonth (y m : Nat) : Nat :=
  if m = 2 then (if leapYear y then 29 else 28)
  else if m = 4 || m = 6 || m = 9 || m = 11 then 30
  else 31

/-- Split a character list at `'-'`, like Python `s.split('-')`. -/
def splitDash (l : List Char) : List (List Char) :=
  l.foldr
    (fun c acc =>
      if c = '-' then [] :: acc
      else
        match acc with
        | [] => [[c]]
        | a :: rest => (c :: a) :: rest)
    [[]]

/-- All characters are decimal digits. -/
def allDigits (l : List Char) : Bool :=
  l.all Char.isDigit

/-- Model of `datetime.strptime(s, '%Y-%m-%d')`: `none` models the
`ValueError` branch. `%Y` consumes up to four digits, `%m` and `%d` up to
two, and the day is validated against the month length. -/
def parseDate (s : String) : Option PyDate :=
  match splitDash s.toList with
  | [ys, ms, ds] =>
    if allDigits ys && allDigits ms && allDigits ds
        && !ys.isEmpty && decide (ys.length ≤ 4)
        && !ms.isEmpty && decide (ms.length ≤ 2)
        && !ds.isEmpty && decide (ds.length ≤ 2) then
      let y := digitsNat ys
      let m := digitsNat ms
      let d := digitsNat ds
      if 1 ≤ m && m ≤ 12 && 1 ≤ d && d ≤ daysInMonth y m then some ⟨y, m, d⟩
      else none
    else none
  | _ => none

/-- Strict ordering on dates (`trans_date < cutoff_date`). -/
def pdLt (a b : PyDate) : Bool :=
  decide (a.year < b.year)
    || (decide (a.year = b.year)
        && (decide (a.month < b.month)
            || (decide (a.month = b.month) && decide (a.day < b.day))))

/-- The normalized record built by `ETLPipeline._process_transaction`
(`type` is a Lean keyword, rendered `ttype`).  String-typed columns carry
the raw payload value, which `d.get(k, '')` does not force to be a
string. -/
structure TxRecord where
  symbol : String
  date : String
  executive : PyVal
  title : PyVal
  ttype : PyVal
  transaction : PyVal
  shares : ℚ
  price : ℚ
deriving DecidableEq, Repr

/-- `ETLPipeline._process_transaction`.  A missing or falsy
`transaction_date` and an unparseable date string are per-entry drops
(`.ok none`); a truthy non-string date value reaches `strptime`, which
raises `TypeError` — not caught by the surrounding `except ValueError`. -/
def process_transaction (t : PyDict) (symbol : String) (cutoff : PyDate) :
    Except PyErr (Option TxRecord) :=
  if !truthyO (dget t "transaction_date") then .ok Option.none
  else
    match dgetN t "transaction_date" with
    | .str s =>
      match parseDate s with
      | Option.none => .ok Option.none
      | some d =>
        if pdLt d cutoff then .ok Option.none
        else do
          let shares ← safe_float (dgetN t "shares") 0
          let price ← safe_float (dgetN t "share_price") 0
          .ok (some
            { symbol := symbol
              date := s
              executive := dgetD t "executive" (.str "")
              title := dgetD t "executive_title" (.str "")
              ttype := dgetD t "security_type" (.str "")
              transaction := dgetD t "acquisition_or_disposal" (.str "")
              shares := shares
              price := price })
    | _ => .error .typeError

/-- `ETLPipeline.transform`: both nested `for` loops, appending each
processed entry that is not a drop.  An exception escaping
`_process_transaction` propagates: `transform` has no handler. -/
def transform (rawData : List (String × List PyDict)) (cutoff : PyDate) :
    Except PyErr (List TxRecord) :=
  rawData.foldlM
    (fun acc sd =>
      sd.2.foldlM
        (fun acc2 tr => do
          let p ← process_transaction tr sd.1 cutoff
          match p with
          | some r => pure (acc2 ++ [r])
          | Option.none => pure acc2)
        acc)
    []

/-- `ETLPipeline.extract` over an arbitrary symbol list: each unit comes
with its fetch outcome (`none` = request error or falsy payload).  The
loop appends every successful payload and clears the success flag on any
failure, but keeps iterating. -/
def extractLoop (units : List (String × Option (List PyDict))) :
    List (String × List PyDict) × Bool :=
  (units.filterMap (fun u => u.2.map (fun d => (u.1, d))),
   units.all (fun u => u.2.isSome))

/-- Observable trace of `main` in `pipeline.py` up to the transform
phase. -/
structure RunTrace where
  raw : List (String × List PyDict)
  extractOk : Bool
  transformRan : Bool
  result : Except PyErr (List TxRecord)
deriving Repr

/-- `main` of `pipeline.py`: `if not pipeline.extract(): return` — the
transform phase runs only when every fetch succeeded. -/
def mainRun (units : List (String × Option (List PyDict))) (cutoff : PyDate) :
    RunTrace :=
  let e := extractLoop units
  if e.2 then
    { raw := e.1, extractOk := true, transformRan := true,
      result := transform e.1 cutoff }
  else
    { raw := e.1, extractOk := false, transformRan := false, result := .ok [] }

/-- Python `s.replace('%', '')` on the value of
`item.get('change_percentage', '')`: on a non-string value (`.replace`
missing) Python raises `AttributeError`. -/
def pyReplaceAll (v : PyVal) (c : Char) : Except PyErr String :=
  match v with
  | .str s => .ok (String.mk (s.toList.filter (fun x => x != c)))
  | _ => .error .attributeError

/-- The normalized record built by `StockMarketETL._process_item`. -/
structure MoverRec where
  ticker : PyVal
  price : ℚ
  change_amount : ℚ
  change_percentage : ℚ
  volume : ℚ
  category : String
  last_updated : PyVal
deriving DecidableEq, Repr

/-- Body of the `try` block of `StockMarketETL._process_item`, in payload
evaluation order. -/
def processItemBody (item : PyDict) (category : String) (lastUpdated : PyVal) :
    Except PyErr MoverRec := do
  let price ← safe_float (dgetN item "price") 0
  let ca ← safe_float (dgetN item "change_amount") 0
  let cps ← pyReplaceAll (dgetD item "change_percentage" (.str "")) '%'
  let cp ← safe_float (.str cps) 0
  let vol ← safe_float (dgetN item "volume") 0
  .ok
    { ticker := dgetD item "ticker" (.str "")
      price := price
      change_amount := ca
      change_percentage := cp
      volume := vol
      category := category
      last_updated := lastUpdated }

/-- `StockMarketETL._process_item`: the whole body sits under
`except Exception: return None`, so every per-entry failure is a drop. -/
def process_item (item : PyDict) (category : String) (lastUpdated : PyVal) :
    Except PyErr (Option MoverRec) :=
  match processItemBody item category lastUpdated with
  | .ok r => .ok (some r)
  | .error _ => .ok Option.none

/-- Equality as the Postgres arbiter unique index sees values: a SQL
`NULL` is distinct from every value, itself included, so rows with a
`NULL` key column never conflict (`UNIQUE` in `_create_table_if_not_exists`
plus `ON CONFLICT` in `_insert_data_to_db`). -/
def sqlEq (a b : PyVal) : Bool :=
  decide (a ≠ .null) && decide (b ≠ .null) && decide (a = b)

/-- Conflict on the uniqueness key `(symbol, date, executive, shares,
price)` of `insider_transactions`.  `symbol` and `date` are `NOT NULL`
strings and `shares`/`price` are numerics coerced by `_safe_float`
(never null), so plain equality applies to them; `executive` is a
nullable column. -/
def conflicts (t r : TxRecord) : Bool :=
  decide (t.symbol = r.symbol) && decide (t.date = r.date)
    && sqlEq t.executive r.executive
    && decide (t.shares = r.shares) && decide (t.price = r.price)

/-- The `DO UPDATE SET title = EXCLUDED.title, type = EXCLUDED.type,
transaction = EXCLUDED.transaction` action: key columns untouched. -/
def updateDesc (t r : TxRecord) : TxRecord :=
  { t with title := r.title, ttype := r.ttype, transaction := r.transaction }

/-- The key tuple of the `UNIQUE (symbol, date, executive, shares,
price)` constraint. -/
def factKey (t : TxRecord) : String × String × PyVal × ℚ × ℚ :=
  (t.symbol, t.date, t.executive, t.shares, t.price)

/-- The arbiter index finds a conflicting row for `r` in `table`. -/
def hasConflict (table : List TxRecord) (r : TxRecord) : Bool :=
  table.any (fun t => conflicts t r)

/-- One `INSERT ... ON CONFLICT ... DO UPDATE` statement against the
fact table.  The unique index keeps at most one conflicting row, so
updating every conflicting row coincides with updating the one. -/
def upsertRow (table : List TxRecord) (r : TxRecord) : List TxRecord :=
  if hasConflict table r then
    table.map (fun t => if conflicts t r then updateDesc t r else t)
  else table ++ [r]

/-- `ETLPipeline._insert_data_to_db`: `cursor.executemany` runs the
statement once per record, in order, inside one transaction. -/
def insertDataToDb (table : List TxRecord) (rows : List TxRecord) :
    List TxRecord :=
  rows.foldl upsertRow table

/-- A row of `stock_metadata` (`last_updated` is `NOT NULL` there). -/
structure MetaRow where
  last_updated : PyVal
  description : PyVal
deriving DecidableEq, Repr

/-- The relational store of `secondScript.py`: the `stock_metadata` and
`stock_movers` tables. -/
structure StockStore where
  meta : List MetaRow
  movers : List MoverRec
deriving Repr

/-- `StockMarketETL._load_metadata`: upsert keyed on `last_updated`
alone (`ON CONFLICT (last_updated) DO UPDATE SET description = ...`). -/
def loadMetadataOp (s : StockStore) (lu desc : PyVal) : StockStore :=
  if s.meta.any (fun m => decide (m.last_updated = lu)) then
    { s with
      meta := s.meta.map (fun m =>
        if decide (m.last_updated = lu) then { m with description := desc }
        else m) }
  else { s with meta := s.meta ++ [⟨lu, desc⟩] }

/-- `StockMarketETL._insert_stock_data`: `DELETE FROM stock_movers WHERE
category = %s`, then insert the batch rows (each row carries its own
`category` field value). -/
def insertStockData (s : StockStore) (rows : List MoverRec) (category : String) :
    StockStore :=
  { s with movers := s.movers.filter (fun r => r.category != category) ++ rows }

/-- `StockMarketETL.load` after a successful connection and DDL:
`_load_metadata` commits, then `_insert_stock_data` commits once per
category in the fixed order gainers, losers, active.  `failAt i = true`
injects a driver failure into commit attempt `i`; the failing batch is
rolled back (its state change discarded), the raised error is caught in
`load`, and `False` is returned — batches already committed stay.
`failAt 0` also covers a connection or table-creation failure, which
likewise leaves the store untouched. -/
def secondLoad (s : StockStore) (lu desc : PyVal)
    (gainers losers active : List MoverRec) (failAt : Nat → Bool) :
    StockStore × Bool :=
  if failAt 0 then (s, false)
  else
    let s1 := loadMetadataOp s lu desc
    if failAt 1 then (s1, false)
    else
      let s2 := insertStockData s1 gainers "gainers"
      if failAt 2 then (s2, false)
      else
        let s3 := insertStockData s2 losers "losers"
        if failAt 3 then (s3, false)
        else (insertStockData s3 active "active", true)

/-- Observable outcome of `ETLPipeline.load`: whether the insert
transaction committed, whether the CSV backup was written, and the
return value (`.error` = an exception `except Error` does not catch). -/
structure LoadTrace where
  dbCommitted : Bool
  csvWritten : Bool
  outcome : Except PyErr Bool
deriving Repr

/-- `ETLPipeline.load` with injected fault flags for the connection, the
DDL, the insert transaction and the CSV write.  The empty-record guard
returns `False` before any of them; `_save_to_csv` runs inside the `try`
only after `_insert_data_to_db` has committed; a CSV failure (`OSError`)
is not a `psycopg2.Error`, so it escapes `load` after the commit. -/
def loadPipeline (processed : List TxRecord)
    (connectOk createOk insertOk csvOk : Bool) : LoadTrace :=
  if processed.isEmpty then ⟨false, false, .ok false⟩
  else if !connectOk then ⟨false, false, .ok false⟩
  else if !createOk then ⟨false, false, .ok false⟩
  else if !insertOk then ⟨false, false, .ok false⟩
  else if !csvOk then ⟨true, false, .error .osError⟩
  else ⟨true, true, .ok true⟩

/-! Concrete sample payloads and records used by witnesses and
counterexamples. -/

/-- A recency cutoff safely before the sample dates. -/
def cutoffSample : PyDate := ⟨2022, 6, 1⟩

/-- The spec's end-to-end sample payload entry. -/
def txA : PyDict :=
  [("transaction_date", .str "2024-01-05"), ("shares", .str "100"),
   ("share_price", .str ""), ("executive", .str "J. Doe")]

/-- The record `txA` normalizes to. -/
def recA : TxRecord :=
  { symbol := "IBM", date := "2024-01-05", executive := .str "J. Doe",
    title := .str "", ttype := .str "", transaction := .str "",
    shares := 100, price := 0 }

/-- `recA` with a different descriptive field and the same key. -/
def recA2 : TxRecord := { recA with title := .str "CEO" }

/-- A payload entry whose `executive` key is present with JSON `null`. -/
def txNull : PyDict :=
  [("transaction_date", .str "2024-01-05"), ("executive", .null)]

/-- The record `txNull` normalizes to: its `executive` is null. -/
def recNull : TxRecord :=
  { symbol := "IBM", date := "2024-01-05", executive := .null,
    title := .str "", ttype := .str "", transaction := .str "",
    shares := 0, price := 0 }

/-- A payload entry whose `transaction_date` is a truthy non-string. -/
def txBadDate : PyDict := [("transaction_date", .num 123)]

/-- Work units `[A, B, C]` where only `B`'s fetch fails. -/
def unitsPartial : List (String × Option (List PyDict)) :=
  [("A", some [txA]), ("B", Option.none), ("C", some [txA])]

/-- A sample gainers row. -/
def mvG : MoverRec :=
  { ticker := .str "AAA", price := 10, change_amount := 1,
    change_percentage := 5, volume := 1000, category := "gainers",
    last_updated := .str "ts1" }

/-- A sample losers row. -/
def mvL : MoverRec :=
  { ticker := .str "BBB", price := 20, change_amount := -2,
    change_percentage := -4, volume := 500, category := "losers",
    last_updated := .str "ts1" }

/-- A second gainers row with another ticker. -/
def mvG2 : MoverRec := { mvG with ticker := .str "CCC", price := 11 }

example : pyParseFloat "1.5" = some (mkRat 3 2) := by decide
example : pyParseFloat "100" = some 100 := by decide
example : pyParseFloat "" = Option.none := by decide
example : pyParseFloat "abc" = Option.none := by decide
example : pyParseFloat "-2e2" = some (-200) := by decide
example : pyParseFloat " 7 " = some 7 := by decide
example : safe_float (.str "100") 0 = .ok 100 := rfl
example : safe_float .null 0 = .ok 0 := rfl
example : safe_float (.num 0) 5 = .ok 5 := rfl

example : parseDate "2024-01-05" = some ⟨2024, 1, 5⟩ := by decide
example : parseDate "2023-02-29" = Option.none := by decide
example : parseDate "not-a-date" = Option.none := by decide

example :
    process_transaction
      [("transaction_date", .str "2024-01-05"), ("shares", .str "100"),
       ("share_price", .str ""), ("executive", .str "J. Doe")]
      "IBM" ⟨2022, 6, 1⟩ =
    .ok (some
      { symbol := "IBM", date := "2024-01-05", executive := .str "J. Doe",
        title := .str "", ttype := .str "", transaction := .str "",
        shares := 100, price := 0 }) := rfl

example :
    process_transaction [("shares", .str "100")] "IBM" ⟨2022, 6, 1⟩ =
      .ok Option.none := rfl

/-- The value is a Python string. -/
def isStrVal (v : PyVal) : Prop :=
  ∃ s, v = PyVal.str s

/-- The optional payload value is absent, or present as a string. -/
def strOrAbsent (o : Option PyVal) : Prop :=
  o = Option.none ∨ ∃ s, o = some (PyVal.str s)

/-! Helper lemmas shared by several claims. -/

theorem safe_float_isOk (v : PyVal) (d : ℚ) : ∃ q, safe_float v d = .ok q := by
  cases v with
  | null => exact ⟨d, rfl⟩
  | str s =>
    by_cases hs : s = ""
    · exact ⟨d, by simp [safe_float, truthy, hs]⟩
    · cases hp : pyParseFloat s with
      | none => exact ⟨d, by simp [safe_float, truthy, pyFloat, hs, hp]⟩
      | some q => exact ⟨q, by simp [safe_float, truthy, pyFloat, hs, hp]⟩
  | num q =>
    by_cases h : q = 0
    · subst h; exact ⟨d, rfl⟩
    · exact ⟨q, by simp [safe_float, truthy, pyFloat, h]⟩
  | boolean b =>
    cases b with
    | false => exact ⟨d, rfl⟩
    | true => exact ⟨1, rfl⟩
  | listv n =>
    by_cases h : n = 0
    · subst h; exact ⟨d, rfl⟩
    · exact ⟨d, by simp [safe_float, truthy, pyFloat, h]⟩

/-- C5: for every input `v`, `_safe_float(v)` returns `float(v)` when `v`
is a string parseable as a number, returns the declared default when `v`
is `None`, the empty string, or a non-numeric string, and never raises. -/
theorem safe_float_coercion (v : PyVal) (d : ℚ) :
    (∀ s q, v = .str s → pyParseFloat s = some q → safe_float v d = .ok q)
      ∧ ((v = .null ∨ v = .str ""
            ∨ ∃ s, v = .str s ∧ pyParseFloat s = Option.none) →
          safe_float v d = .ok d)
      ∧ ∃ q, safe_float v d = .ok q := by
  refine ⟨?_, ?_, safe_float_isOk v d⟩
  · intro s q hv hp
    subst hv
    have hs : s ≠ "" := by
      intro h
      rw [h] at hp
      have : pyParseFloat "" = Option.none := by decide
      rw [this] at hp
      cases hp
    simp [safe_float, truthy, pyFloat, hs, hp]
  · rintro (h | h | ⟨s, h, hp⟩) <;> subst h
    · rfl
    · rfl
    · by_cases hs : s = ""
      · subst hs; rfl
      · simp [safe_float, truthy, pyFloat, hs, hp]

/-- Witness for C5: a parseable string yields its parse, `None` and a
non-numeric string yield the declared default. -/
theorem safe_float_coercion_witness :
    safe_float (.str "1.5") 0 = .ok (mkRat 3 2)
      ∧ safe_float .null 7 = .ok 7
      ∧ safe_float (.str "abc") 7 = .ok 7 :=
  ⟨(safe_float_coercion (.str "1.5") 0).1 "1.5" (mkRat 3 2) rfl (by decide),
   (safe_float_coercion .null 7).2.1 (Or.inl rfl),
   (safe_float_coercion (.str "abc") 7).2.1
     (Or.inr (Or.inr ⟨"abc", rfl, by decide⟩))⟩

theorem conflicts_updateDesc (t r x : TxRecord) :
    conflicts (updateDesc t r) x = conflicts t x := rfl

theorem self_conflict {r : TxRecord} (h : r.executive ≠ .null) :
    conflicts r r = true := by
  simp [conflicts, sqlEq, h]

theorem hasConflict_upsert (T : List TxRecord) (x r : TxRecord)
    (h : hasConflict T r = true) : hasConflict (upsertRow T x) r = true := by
  unfold upsertRow
  split
  · simp only [hasConflict, List.any_map, List.any_eq_true] at h ⊢
    obtain ⟨t, ht, hc⟩ := h
    refine ⟨t, ht, ?_⟩
    by_cases hx : conflicts t x = true <;>
      simp [Function.comp, hx, conflicts_updateDesc, hc]
  · simp only [hasConflict] at h
    simp [hasConflict, List.any_append, h]

theorem hasConflict_upsert_self (T : List TxRecord) (r : TxRecord)
    (h : r.executive ≠ .null) : hasConflict (upsertRow T r) r = true := by
  unfold upsertRow
  split
  · rename_i hc
    simp only [hasConflict, List.any_eq_true] at hc
    simp only [hasConflict, List.any_map, List.any_eq_true]
    obtain ⟨t, ht, htc⟩ := hc
    exact ⟨t, ht, by simp [Function.comp, htc, conflicts_updateDesc]⟩
  · simp [hasConflict, List.any_append, self_conflict h]

theorem upsert_length_of_conflict (T : List TxRecord) (r : TxRecord)
    (h : hasConflict T r = true) : (upsertRow T r).length = T.length := by
  simp [upsertRow, h]

theorem factKey_updateDesc (t r : TxRecord) :
    factKey (updateDesc t r) = factKey t := rfl

theorem upsert_keys_of_conflict (T : List TxRecord) (r : TxRecord)
    (h : hasConflict T r = true) :
    (upsertRow T r).map factKey = T.map factKey := by
  simp only [upsertRow, h, if_pos]
  clear h
  induction T with
  | nil => rfl
  | cons a T ih =>
    simp only [List.map_cons]
    rw [ih]
    congr 1
    by_cases ha : conflicts a r = true
    · rw [if_pos ha, factKey_updateDesc]
    · rw [if_neg ha]

theorem hasConflict_insert_fold (R : List TxRecord) (T : List TxRecord)
    (r : TxRecord) (h : hasConflict T r = true) :
    hasConflict (insertDataToDb T R) r = true := by
  induction R generalizing T with
  | nil => exact h
  | cons a R ih => exact ih (upsertRow T a) (hasConflict_upsert T a r h)

theorem mem_insert_hasConflict (R T : List TxRecord) (r : TxRecord)
    (h : r.executive ≠ .null) :
    r ∈ R → hasConflict (insertDataToDb T R) r = true := by
  induction R generalizing T with
  | nil => intro hr; cases hr
  | cons a R ih =>
    intro hr
    cases hr with
    | head =>
      exact hasConflict_insert_fold R (upsertRow T r) r
        (hasConflict_upsert_self T r h)
    | tail _ hr2 => exact ih (upsertRow T a) hr2

theorem insert_length_of_all_conflict (R : List TxRecord) (T : List TxRecord)
    (h : ∀ r ∈ R, hasConflict T r = true) :
    (insertDataToDb T R).length = T.length := by
  induction R generalizing T with
  | nil => rfl
  | cons a R ih =>
    have step : (insertDataToDb (upsertRow T a) R).length = (upsertRow T a).length :=
      ih (upsertRow T a)
        (fun r hr => hasConflict_upsert T a r (h r (List.mem_cons_of_mem a hr)))
    calc (insertDataToDb T (a :: R)).length
        = (insertDataToDb (upsertRow T a) R).length := rfl
      _ = (upsertRow T a).length := step
      _ = T.length := upsert_length_of_conflict T a (h a (List.mem_cons_self a R))

/-- C1 counterexample: the claim fails as stated.  A record whose
`executive` is SQL `NULL` — produced by `_process_transaction` from a
payload carrying an explicit JSON `null` — never matches the
`(symbol, date, executive, shares, price)` arbiter index, because a SQL
`NULL` compares equal to nothing; loading the same one-record set twice
against an empty store therefore yields two rows, not one. -/
theorem fact_upsert_counterexample :
    process_transaction txNull "IBM" cutoffSample = .ok (some recNull)
      ∧ (insertDataToDb (insertDataToDb [] [recNull]) [recNull]).length = 2
      ∧ (insertDataToDb [] [recNull]).length = 1 :=
  ⟨rfl, rfl, rfl⟩

/-- C1 amended: provided no record of `R` has a `NULL` `executive` (the
normalizer guarantees this whenever the payload's `executive` field is
absent or a string), loading `R` twice from an empty store yields the
same row count as loading it once; and whenever an insert conflicts, the
upsert leaves every row's key tuple unchanged and adds no row — only the
descriptive fields `title`, `type`, `transaction` are updated. -/
theorem fact_upsert_idempotent (R : List TxRecord)
    (hR : ∀ r ∈ R, r.executive ≠ PyVal.null) :
    (insertDataToDb (insertDataToDb [] R) R).length
        = (insertDataToDb [] R).length
      ∧ ∀ (T : List TxRecord) (r : TxRecord), hasConflict T r = true →
          (upsertRow T r).map factKey = T.map factKey := by
  constructor
  · exact insert_length_of_all_conflict R (insertDataToDb [] R)
      (fun r hr => mem_insert_hasConflict R [] r (hR r hr) hr)
  · exact fun T r h => upsert_keys_of_conflict T r h

/-- Witness for C1 amended: a two-record set with non-null executives,
and a conflicting insert that rewrites `title` but keeps the keys. -/
theorem fact_upsert_idempotent_witness :
    (insertDataToDb (insertDataToDb [] [recA, recA2]) [recA, recA2]).length
        = (insertDataToDb [] [recA, recA2]).length
      ∧ (upsertRow [recA] recA2).map factKey = [recA].map factKey := by
  have h := fact_upsert_idempotent [recA, recA2] (by decide)
  exact ⟨h.1, h.2 [recA] recA2 (by decide)⟩

theorem filter_beq_of_bne (l : List MoverRec) (X : String) :
    (l.filter (fun r => r.category != X)).filter (fun r => r.category == X)
      = [] := by
  induction l with
  | nil => rfl
  | cons a l ih =>
    by_cases h : a.category = X <;> simp [h, ih]

theorem filter_bne_idem (l : List MoverRec) (X : String) :
    ((l.filter (fun r => r.category != X)).filter (fun r => r.category != X))
      = l.filter (fun r => r.category != X) :=
  List.filter_eq_self.mpr (fun _ ha => (List.mem_filter.mp ha).2)

theorem loadMetadataOp_movers (s : StockStore) (lu desc : PyVal) :
    (loadMetadataOp s lu desc).movers = s.movers := by
  unfold loadMetadataOp
  split <;> rfl

/-- C4: loading category `X` with `R1` and then `R2` leaves exactly
`R2`'s rows present for `X` — the delete-then-insert of
`_insert_stock_data` removes all prior `X` rows first — and rows of
other categories are untouched. -/
theorem snapshot_replace (s : StockStore) (R1 R2 : List MoverRec) (X : String)
    (h1 : ∀ r ∈ R1, r.category = X) (h2 : ∀ r ∈ R2, r.category = X) :
    ((insertStockData (insertStockData s R1 X) R2 X).movers.filter
        (fun r => r.category == X)) = R2
      ∧ ((insertStockData (insertStockData s R1 X) R2 X).movers.filter
          (fun r => r.category != X))
        = s.movers.filter (fun r => r.category != X) := by
  have hR1 : R1.filter (fun r => r.category != X) = [] := by
    rw [List.filter_eq_nil_iff]
    intro a ha
    simp [h1 a ha]
  have hR2 : R2.filter (fun r => r.category != X) = [] := by
    rw [List.filter_eq_nil_iff]
    intro a ha
    simp [h2 a ha]
  have hR2q : R2.filter (fun r => r.category == X) = R2 := by
    rw [List.filter_eq_self]
    intro a ha
    simp [h2 a ha]
  constructor
  · simp [insertStockData, List.filter_append, hR1, hR2q, filter_beq_of_bne]
  · simp [insertStockData, List.filter_append, hR1, hR2, filter_bne_idem]

/-- Witness for C4: two loads of the gainers category on a store that
also holds a losers row. -/
theorem snapshot_replace_witness :
    ((insertStockData (insertStockData ⟨[], [mvG, mvL]⟩ [mvG] "gainers")
        [mvG2] "gainers").movers.filter (fun r => r.category == "gainers"))
      = [mvG2]
      ∧ ((insertStockData (insertStockData ⟨[], [mvG, mvL]⟩ [mvG] "gainers")
          [mvG2] "gainers").movers.filter (fun r => r.category != "gainers"))
        = List.filter (fun r => r.category != "gainers") [mvG, mvL] :=
  snapshot_replace ⟨[], [mvG, mvL]⟩ [mvG] [mvG2] "gainers"
    (by decide) (by decide)

/-- C10: with an empty processed list for a category, `_insert_stock_data`
still deletes every previously stored row of that category; a full run
whose three category lists are all empty commits successfully and erases
the prior rows of all three categories. -/
theorem empty_category_erases (s : StockStore) (lu desc : PyVal) (X : String) :
    (insertStockData s [] X).movers
        = s.movers.filter (fun r => r.category != X)
      ∧ (secondLoad s lu desc [] [] [] (fun _ => false)).2 = true
      ∧ (secondLoad s lu desc [] [] [] (fun _ => false)).1.movers
          = ((s.movers.filter (fun r => r.category != "gainers")).filter
              (fun r => r.category != "losers")).filter
              (fun r => r.category != "active") := by
  refine ⟨by simp [insertStockData], rfl, ?_⟩
  simp [secondLoad, insertStockData, loadMetadataOp_movers]

/-- C3 counterexample: the claim fails as stated.  With the gainers
batch committed and a failure injected into the losers batch, the run
reports failure, yet the store already contains the metadata row and the
gainers row newly committed by this very run. -/
theorem load_atomicity_counterexample :
    (secondLoad ⟨[], []⟩ (.str "ts1") (.str "d") [mvG] [mvL] []
        (fun i => decide (i = 2))).2 = false
      ∧ (secondLoad ⟨[], []⟩ (.str "ts1") (.str "d") [mvG] [mvL] []
          (fun i => decide (i = 2))).1.movers = [mvG]
      ∧ (secondLoad ⟨[], []⟩ (.str "ts1") (.str "d") [mvG] [mvL] []
          (fun i => decide (i = 2))).1.meta
        = [⟨.str "ts1", .str "d"⟩] :=
  ⟨rfl, rfl, rfl⟩

/-- C3 amended: atomicity is per batch, not per run.  Each of the four
commits (metadata, gainers, losers, active) is all-or-nothing: a failure
injected into commit `i` leaves the store exactly as the previous
commits left it — the failing batch contributes nothing — and the run
reports failure; with no failure each batch commits exactly once. -/
theorem load_batch_atomicity (s : StockStore) (lu desc : PyVal)
    (g l a : List MoverRec) :
    secondLoad s lu desc g l a (fun i => decide (i = 0)) = (s, false)
      ∧ secondLoad s lu desc g l a (fun i => decide (i = 1))
          = (loadMetadataOp s lu desc, false)
      ∧ secondLoad s lu desc g l a (fun i => decide (i = 2))
          = (insertStockData (loadMetadataOp s lu desc) g "gainers", false)
      ∧ secondLoad s lu desc g l a (fun i => decide (i = 3))
          = (insertStockData (insertStockData (loadMetadataOp s lu desc) g
              "gainers") l "losers", false)
      ∧ secondLoad s lu desc g l a (fun _ => false)
          = (insertStockData (insertStockData (insertStockData
              (loadMetadataOp s lu desc) g "gainers") l "losers") a "active",
              true) :=
  ⟨rfl, rfl, rfl, rfl, rfl⟩

/-- C7 counterexample: the claim fails as stated.  With a failure in the
insert transaction, `_save_to_csv` — which sits inside the `try` after
`_insert_data_to_db` — is never reached: the load failure does prevent
the CSV backup. -/
theorem csv_after_load_counterexample :
    (loadPipeline [recA] true true false true).csvWritten = false
      ∧ (loadPipeline [recA] true true false true).dbCommitted = false
      ∧ (loadPipeline [recA] true true false true).outcome = .ok false :=
  ⟨rfl, rfl, rfl⟩

/-- C7 amended: the CSV backup is attempted only after the insert
transaction has committed; an insert failure skips the CSV write and
returns `False`; conversely a CSV failure never rolls back the committed
database write. -/
theorem csv_after_commit (processed : List TxRecord) (c t i v : Bool) :
    ((loadPipeline processed c t i v).csvWritten = true →
        (loadPipeline processed c t i v).dbCommitted = true)
      ∧ (processed ≠ [] → c = true → t = true → i = false →
          (loadPipeline processed c t i v).csvWritten = false
            ∧ (loadPipeline processed c t i v).outcome = .ok false)
      ∧ (loadPipeline processed c t i false).dbCommitted
          = (loadPipeline processed c t i true).dbCommitted := by
  cases c <;> cases t <;> cases i <;> cases v <;>
    by_cases hp : processed = [] <;>
      simp [loadPipeline, hp]

/-- Witness for C7 amended: an insert failure skips the CSV write; a
CSV failure leaves the commit in place. -/
theorem csv_after_commit_witness :
    ((loadPipeline [recA] true true false true).csvWritten = false
        ∧ (loadPipeline [recA] true true false true).outcome = .ok false)
      ∧ (loadPipeline [recA] true true true false).dbCommitted
          = (loadPipeline [recA] true true true true).dbCommitted := by
  refine ⟨(csv_after_commit [recA] true true false true).2.1 ?_ rfl rfl rfl,
    (csv_after_commit [recA] true true true true).2.2⟩
  intro h
  cases h

/-- C8 counterexample: the claim fails as stated.  On the empty record
set, `load` returns `False` — `main` then reports "Loading phase
failed" — rather than a no-op success (it does write nothing). -/
theorem empty_load_counterexample :
    (loadPipeline [] true true true true).outcome = .ok false
      ∧ (loadPipeline [] true true true true).outcome ≠ .ok true
      ∧ (loadPipeline [] true true true true).dbCommitted = false
      ∧ (loadPipeline [] true true true true).csvWritten = false := by
  refine ⟨rfl, ?_, rfl, rfl⟩
  intro h
  simp [loadPipeline] at h

/-- C8 amended: for the empty record set, `load` writes nothing — no
commit, no CSV — and returns `False`, which the orchestrator reports as
a load-phase failure, not a success. -/
theorem empty_load_noop (c t i v : Bool) :
    loadPipeline [] c t i v = ⟨false, false, .ok false⟩ :=
  rfl

/-- C2 counterexample: the claim fails as stated.  With units
`[A, B, C]` and only `B`'s fetch failing, the extraction loop does keep
fetching — the payloads of `A` and `C` are retained — but `extract()`
returns `False` and `main` returns immediately: the transform phase
never runs and no processed records are produced, even though the
retained payloads would have produced records for `A` and `C`. -/
theorem partial_extraction_counterexample :
    (mainRun unitsPartial cutoffSample).extractOk = false
      ∧ (mainRun unitsPartial cutoffSample).transformRan = false
      ∧ (mainRun unitsPartial cutoffSample).result = .ok []
      ∧ (mainRun unitsPartial cutoffSample).raw = [("A", [txA]), ("C", [txA])]
      ∧ transform [("A", [txA]), ("C", [txA])] cutoffSample
          = .ok [{ recA with symbol := "A" }, { recA with symbol := "C" }] :=
  ⟨rfl, rfl, rfl, rfl, rfl⟩

/-- C2 amended: when at least one fetch fails, the loop still continues
through the remaining units — every successful unit's payload is
retained in order — but `extract()` returns `False`, so `main` halts
before the transform phase and no processed records are produced at
all. -/
theorem partial_extraction_halts (units : List (String × Option (List PyDict)))
    (cutoff : PyDate) (h : ∃ u ∈ units, u.2 = Option.none) :
    (mainRun units cutoff).extractOk = false
      ∧ (mainRun units cutoff).transformRan = false
      ∧ (mainRun units cutoff).result = .ok []
      ∧ ∀ s p, (s, some p) ∈ units → (s, p) ∈ (mainRun units cutoff).raw := by
  have he : (extractLoop units).2 = false := by
    obtain ⟨u, hu, h2⟩ := h
    have hne : ¬(units.all (fun u => u.2.isSome) = true) := by
      rw [List.all_eq_true]
      intro hall
      have hx := hall u hu
      rw [h2] at hx
      cases hx
    exact Bool.eq_false_iff.mpr (by simpa [extractLoop] using hne)
  refine ⟨?_, ?_, ?_, ?_⟩
  · simp [mainRun, he]
  · simp [mainRun, he]
  · simp [mainRun, he]
  · intro s p hm
    have hraw : (mainRun units cutoff).raw = (extractLoop units).1 := by
      simp [mainRun, he]
    rw [hraw]
    exact List.mem_filterMap.mpr ⟨(s, some p), hm, rfl⟩

/-- Witness for C2 amended at the `[A, B, C]` units. -/
theorem partial_extraction_halts_witness :
    (mainRun unitsPartial cutoffSample).extractOk = false
      ∧ (mainRun unitsPartial cutoffSample).transformRan = false
      ∧ ("A", [txA]) ∈ (mainRun unitsPartial cutoffSample).raw := by
  have h := partial_extraction_halts unitsPartial cutoffSample
    ⟨("B", Option.none), by decide, rfl⟩
  exact ⟨h.1, h.2.1, h.2.2.2 "A" [txA] (by decide)⟩

theorem except_bind_ok {α β : Type} (a : α) (f : α → Except PyErr β) :
    ((Except.ok a : Except PyErr α) >>= f) = f a := rfl

theorem except_bind_err {α β : Type} (e : PyErr) (f : α → Except PyErr β) :
    ((Except.error e : Except PyErr α) >>= f) = Except.error e := rfl

/-- Complete output characterization of `_process_transaction`: it
raises `TypeError`, drops the entry, or emits the record whose string
columns come from `d.get(k, '')`. -/
theorem process_transaction_shape (t : PyDict) (sym : String) (cutoff : PyDate) :
    process_transaction t sym cutoff = .error .typeError
      ∨ process_transaction t sym cutoff = .ok Option.none
      ∨ ∃ s q1 q2, process_transaction t sym cutoff
          = .ok (some
            { symbol := sym, date := s,
              executive := dgetD t "executive" (.str ""),
              title := dgetD t "executive_title" (.str ""),
              ttype := dgetD t "security_type" (.str ""),
              transaction := dgetD t "acquisition_or_disposal" (.str ""),
              shares := q1, price := q2 }) := by
  cases h0 : truthyO (dget t "transaction_date") with
  | false => exact Or.inr (Or.inl (by simp [process_transaction, h0]))
  | true =>
    cases hv : dgetN t "transaction_date" with
    | str s =>
      cases hd : parseDate s with
      | none =>
        exact Or.inr (Or.inl (by simp [process_transaction, h0, hv, hd]))
      | some d =>
        by_cases hlt : pdLt d cutoff = true
        · exact Or.inr (Or.inl (by simp [process_transaction, h0, hv, hd, hlt]))
        · obtain ⟨q1, hq1⟩ := safe_float_isOk (dgetN t "shares") 0
          obtain ⟨q2, hq2⟩ := safe_float_isOk (dgetN t "share_price") 0
          refine Or.inr (Or.inr ⟨s, q1, q2, ?_⟩)
          simp [process_transaction, h0, hv, hd, hlt, hq1, hq2,
            except_bind_ok]
    | null => exact Or.inl (by simp [process_transaction, h0, hv])
    | num q => exact Or.inl (by simp [process_transaction, h0, hv])
    | boolean b => exact Or.inl (by simp [process_transaction, h0, hv])
    | listv n => exact Or.inl (by simp [process_transaction, h0, hv])

/-- C6 counterexample: the claim fails as stated.  An entry whose
`transaction_date` is a truthy non-string reaches `strptime`, raising a
`TypeError` that `_process_transaction` does not catch (it catches only
`ValueError`); the exception aborts the whole transform phase, even
discarding the good entry processed before it. -/
theorem transform_abort_counterexample :
    process_transaction txBadDate "IBM" cutoffSample = .error .typeError
      ∧ transform [("IBM", [txA, txBadDate])] cutoffSample
          = .error .typeError :=
  ⟨rfl, rfl⟩

/-- C6 amended: per-entry isolation holds unconditionally in the
stock-movers pipeline — `_process_item` catches every exception and
drops the entry — and in the insider pipeline for every entry whose
`transaction_date` is absent or a string; a truthy non-string date,
however, raises an uncaught `TypeError` that aborts transform. -/
theorem per_entry_isolation :
    (∀ (item : PyDict) (cat : String) (lu : PyVal),
        ∃ o, process_item item cat lu = .ok o)
      ∧ ∀ (t : PyDict) (sym : String) (cutoff : PyDate),
          strOrAbsent (dget t "transaction_date") →
          ∃ o, process_transaction t sym cutoff = .ok o := by
  constructor
  · intro item cat lu
    cases hb : processItemBody item cat lu with
    | ok r => exact ⟨some r, by simp [process_item, hb]⟩
    | error e => exact ⟨Option.none, by simp [process_item, hb]⟩
  · rintro t sym cutoff (h | ⟨s, h⟩)
    · exact ⟨Option.none, by simp [process_transaction, truthyO, h]⟩
    · by_cases hs : s = ""
      · subst hs
        exact ⟨Option.none, by simp [process_transaction, truthyO, truthy, h]⟩
      · cases hd : parseDate s with
        | none =>
          exact ⟨Option.none, by
            simp [process_transaction, truthyO, truthy, dgetN, h, hs, hd]⟩
        | some d =>
          by_cases hlt : pdLt d cutoff = true
          · exact ⟨Option.none, by
              simp [process_transaction, truthyO, truthy, dgetN, h, hs, hd, hlt]⟩
          · obtain ⟨q1, hq1⟩ := safe_float_isOk ((dget t "shares").getD .null) 0
            obtain ⟨q2, hq2⟩ :=
              safe_float_isOk ((dget t "share_price").getD .null) 0
            refine ⟨some
              { symbol := sym, date := s,
                executive := dgetD t "executive" (.str ""),
                title := dgetD t "executive_title" (.str ""),
                ttype := dgetD t "security_type" (.str ""),
                transaction := dgetD t "acquisition_or_disposal" (.str ""),
                shares := q1, price := q2 }, ?_⟩
            simp [process_transaction, truthyO, truthy, dgetN, h, hs, hd, hlt,
              hq1, hq2, except_bind_ok]

/-- Witness for C6 amended: a stock item is processed without raising,
and a string-dated insider entry is processed without raising. -/
theorem per_entry_isolation_witness :
    (∃ o, process_item [("price", PyVal.num 3)] "gainers" (PyVal.str "ts")
        = .ok o)
      ∧ ∃ o, process_transaction txA "IBM" cutoffSample = .ok o := by
  have h := per_entry_isolation
  exact ⟨h.1 [("price", PyVal.num 3)] "gainers" (.str "ts"),
    h.2 txA "IBM" cutoffSample (Or.inr ⟨"2024-01-05", rfl⟩)⟩

theorem strOrAbsent_getD (o : Option PyVal) (h : strOrAbsent o) :
    isStrVal (o.getD (.str "")) := by
  rcases h with h | ⟨s, h⟩ <;> subst h
  · exact ⟨"", rfl⟩
  · exact ⟨s, rfl⟩

theorem processItemBody_ticker (item : PyDict) (cat : String) (lu : PyVal)
    (r : MoverRec) (h : processItemBody item cat lu = .ok r) :
    r.ticker = dgetD item "ticker" (.str "") := by
  obtain ⟨q1, hq1⟩ := safe_float_isOk (dgetN item "price") 0
  obtain ⟨q2, hq2⟩ := safe_float_isOk (dgetN item "change_amount") 0
  obtain ⟨q4, hq4⟩ := safe_float_isOk (dgetN item "volume") 0
  unfold processItemBody at h
  cases hrep : pyReplaceAll (dgetD item "change_percentage" (.str "")) '%' with
  | error e =>
    simp only [hq1, hq2, hrep, except_bind_ok, except_bind_err] at h
    cases h
  | ok cps =>
    obtain ⟨q3, hq3⟩ := safe_float_isOk (.str cps) 0
    simp only [hq1, hq2, hrep, hq3, hq4, except_bind_ok] at h
    simp only [Except.ok.injEq] at h
    rw [← h]

/-- C9 counterexample: the claim fails as stated.  A payload in which
`executive` is present but null is normalized to a record whose
`executive` field is null — `d.get('executive', '')` substitutes the
empty string only when the key is absent, not when its value is null. -/
theorem string_totality_counterexample :
    process_transaction txNull "IBM" cutoffSample = .ok (some recNull)
      ∧ recNull.executive = PyVal.null
      ∧ ¬ isStrVal recNull.executive := by
  refine ⟨rfl, rfl, ?_⟩
  rintro ⟨s, hs⟩
  cases hs

/-- C9 amended: every emitted record's string field carries the
payload's value when the key is present — whatever its type, null
included — and the empty string when absent; in particular, whenever
each such present value is a string, every string field of the emitted
record is a string. -/
theorem string_field_totality :
    (∀ (t : PyDict) (sym : String) (cutoff : PyDate) (r : TxRecord),
        strOrAbsent (dget t "executive") →
        strOrAbsent (dget t "executive_title") →
        strOrAbsent (dget t "security_type") →
        strOrAbsent (dget t "acquisition_or_disposal") →
        process_transaction t sym cutoff = .ok (some r) →
        isStrVal r.executive ∧ isStrVal r.title ∧ isStrVal r.ttype
          ∧ isStrVal r.transaction)
      ∧ ∀ (item : PyDict) (cat : String) (lu : PyVal) (r : MoverRec),
          strOrAbsent (dget item "ticker") →
          process_item item cat lu = .ok (some r) → isStrVal r.ticker := by
  constructor
  · intro t sym cutoff r hex hti hty htr h
    rcases process_transaction_shape t sym cutoff with hsh | hsh | ⟨s, q1, q2, hsh⟩
    · rw [hsh] at h; simp at h
    · rw [hsh] at h; simp at h
    · rw [hsh] at h
      simp only [Except.ok.injEq, Option.some.injEq] at h
      subst h
      exact ⟨strOrAbsent_getD _ hex, strOrAbsent_getD _ hti,
        strOrAbsent_getD _ hty, strOrAbsent_getD _ htr⟩
  · intro item cat lu r htk h
    cases hb : processItemBody item cat lu with
    | error e =>
      unfold process_item at h
      rw [hb] at h
      simp at h
    | ok r2 =>
      unfold process_item at h
      rw [hb] at h
      simp only [Except.ok.injEq, Option.some.injEq] at h
      subst h
      rw [processItemBody_ticker item cat lu r2 hb]
      exact strOrAbsent_getD _ htk

/-- Witness for C9 amended: the spec's sample entry (string `executive`,
other keys absent) yields all-string fields; a stock item with a string
ticker yields a string ticker. -/
theorem string_field_totality_witness :
    (isStrVal recA.executive ∧ isStrVal recA.title ∧ isStrVal recA.ttype
        ∧ isStrVal recA.transaction)
      ∧ isStrVal (PyVal.str "AAA") := by
  have h := string_field_totality
  refine ⟨h.1 txA "IBM" cutoffSample recA (Or.inr ⟨"J. Doe", rfl⟩)
    (Or.inl rfl) (Or.inl rfl) (Or.inl rfl) rfl, ?_⟩
  exact h.2 [("ticker", PyVal.str "AAA")] "gainers" (PyVal.str "ts")
    { ticker := PyVal.str "AAA", price := 0, change_amount := 0,
      change_percentage := 0, volume := 0, category := "gainers",
      last_updated := PyVal.str "ts" }
    (Or.inr ⟨"AAA", rfl⟩) rfl
